import Mathlib

/-!
Verification of the xHelper desktop application (RungetOS web-site repository).

This file shallowly embeds the pieces of the Python sources that the spec's
testable properties talk about:

* the plugin loader `XHelperMainWindow.load_plugins`,
* the adb command runner `XHelperMainWindow.run_adb_command`,
* the fastboot runner `XHelperMainWindow.run_fastboot_command`,
* the mass-install worker `XHelperMainWindow.install_apks_thread` and its
  controller (`start_mass_installation` / `mass_installation_finished`),
* the settings persistence (`save_settings` / `load_settings`, a JSON
  round trip),
* the keycode validator `_is_valid_keycode` of the hardware-key plugin,
* the colour mapping `_color_for_percent` of the ROM-usage plugin,
* the battery-level parsers (`update_monitor`, `_parse_battery_output`).

External effects (subprocess execution, the file system, Qt dialogs) are
passed in as explicit inputs or returned as explicit outputs, so every
definition is executable.
-/

namespace XHelper

/-! ### Python string helpers

Small executable models of the Python string operations the sources use.
They work on `List Char`, with wrappers on `String` where convenient. -/

/-- Whitespace characters recognised by Python's `str.strip()` / `str.split()`
(space, tab, newline, carriage return, vertical tab, form feed; the exotic
Unicode space classes are out of the modelled character range). -/
def isPySpace (c : Char) : Bool :=
  c = ' ' || c = '\t' || c = '\n' || c = '\r' || c.toNat = 11 || c.toNat = 12

/-- Python `str.strip()` on a character list: drop whitespace from both ends. -/
def pyStripList (s : List Char) : List Char :=
  ((s.dropWhile isPySpace).reverse.dropWhile isPySpace).reverse

/-- Python `str.strip()`. -/
def pyStrip (s : String) : String :=
  ⟨pyStripList s.toList⟩

/-- Accumulator pass of Python `str.split()` with no separator: collect the
maximal whitespace-free runs. -/
def pySplitAux : List Char → List Char → List (List Char)
  | [], cur => if cur.isEmpty then [] else [cur.reverse]
  | c :: rest, cur =>
    if isPySpace c then
      if cur.isEmpty then pySplitAux rest []
      else cur.reverse :: pySplitAux rest []
    else pySplitAux rest (c :: cur)

/-- Python `str.split()` with no separator: split on whitespace runs and
drop the empty pieces. -/
def pySplit (s : String) : List String :=
  (pySplitAux s.toList []).map (fun p => (⟨p⟩ : String))

/-- Split a character list at every occurrence of `sep`, keeping empty
pieces (Python `str.split(sep)`); the result is always non-empty. -/
def splitOnChar (sep : Char) : List Char → List (List Char)
  | [] => [[]]
  | c :: rest =>
    if c = sep then [] :: splitOnChar sep rest
    else
      match splitOnChar sep rest with
      | p :: ps => (c :: p) :: ps
      | [] => [[c]]

/-- Python `str.splitlines()` restricted to `\n` separators (the only line
separator the adb output in question contains): split at newlines and drop
the trailing empty piece of a terminal newline. -/
def pySplitlines (s : String) : List String :=
  if s = "" then [] else
    let parts := (splitOnChar (Char.ofNat 10) s.toList).map (fun p => (⟨p⟩ : String))
    if parts.getLast? = some "" then parts.dropLast else parts

/-- Python `line.split(":", 1)`: break at the first colon.  Returns the part
before the colon and the part after it when a colon exists. -/
def splitFirstColon (s : List Char) : Option (List Char × List Char) :=
  match s with
  | [] => none
  | c :: rest =>
    if c = ':' then some ([], rest)
    else match splitFirstColon rest with
      | some (a, b) => some (c :: a, b)
      | none => none

/-- ASCII lower-casing, as Python `str.lower()` acts on the ASCII keys the
battery parser uses. -/
def pyLowerList (s : List Char) : List Char :=
  s.map Char.toLower

/-- Containment of `pat` as a contiguous run of `s`, on character lists. -/
def containsSubList (s pat : List Char) : Bool :=
  match s with
  | [] => pat.isEmpty
  | _ :: rest => List.isPrefixOf pat s || containsSubList rest pat

/-- Membership of `pat` as a contiguous substring of `s` (Python `pat in s`). -/
def containsSub (s pat : String) : Bool :=
  containsSubList s.toList pat.toList

/-- Python `s.endswith(suffix)`: suffix test on the character lists. -/
def pyEndsWith (s suffix : String) : Bool :=
  List.isPrefixOf suffix.toList.reverse s.toList.reverse

/-- Decimal digit test (the ASCII fragment of Python's `\d`). -/
def isAsciiDigit (c : Char) : Bool :=
  '0' ≤ c && c ≤ '9'

/-- Numeric value of a decimal digit string. -/
def digitsVal (s : List Char) : Nat :=
  s.foldl (fun acc c => 10 * acc + (c.toNat - '0'.toNat)) 0

/-! ### C7: the keycode validator

Source: `plugins/hardware_key_emulator.py`

```python
def _is_valid_keycode(text: str) -> bool:
    return bool(re.fullmatch(r"\d{1,3}", text.strip())) and 0 <= int(text) <= 255
```

`re.fullmatch(r"\d{1,3}", text.strip())` demands that the stripped text be
one to three digits; only then is `int(text)` evaluated (Python `and`
short-circuits), and `int` itself ignores the surrounding whitespace, so its
value is the value of the stripped digit string.  The model covers the ASCII
digits (Python's `\d` also accepts other Unicode digit classes, which none of
the claimed inputs contain). -/

def is_valid_keycode (text : String) : Bool :=
  let t := pyStripList text.toList
  if (1 ≤ t.length && t.length ≤ 3) && t.all isAsciiDigit then
    decide ((0 : Int) ≤ (digitsVal t : Int) ∧ (digitsVal t : Int) ≤ 255)
  else
    false

/-! ### C8: the ROM-usage colour mapping

Source: `broken_plugins (POTENTIALY doesnt work!)/rom_usage_progress.py`

```python
def _color_for_percent(percent: int) -> str:
    if percent < 0: percent = 0
    if percent > 100: percent = 100
    if percent <= 50:
        r = int(255 * percent / 50); g = 255
    else:
        r = 255; g = int(255 * (100 - percent) / 50)
    return f"rgb({r},{g},0)"
```

After clamping, the numerators are non-negative, so Python's `int(x / 50)`
truncation coincides with the floor, and (the quotient having denominator 50,
far from any double-rounding boundary) with exact natural division. -/

def color_for_percent (percent : Int) : String :=
  let p : Int := if percent < 0 then 0 else if percent > 100 then 100 else percent
  let pn : Nat := p.toNat
  if p ≤ 50 then
    "rgb(" ++ toString (255 * pn / 50) ++ "," ++ toString (255 : Nat) ++ ",0)"
  else
    "rgb(" ++ toString (255 : Nat) ++ "," ++ toString (255 * (100 - pn) / 50) ++ ",0)"

/-! ### C1: the plugin loader

Source: `XHelperMainWindow.load_plugins` (identical in `alpha` and
`alpha_on_english` up to the language of the messages; the `alpha` wording is
used here):

```python
for fn in os.listdir(plugins_dir):
    if not fn.endswith(".py"):
        continue
    path = os.path.join(plugins_dir, fn)
    spec = importlib.util.spec_from_file_location(f"plugin_{fn[:-3]}", path)
    if spec and spec.loader:
        try:
            mod = importlib.util.module_from_spec(spec)
            spec.loader.exec_module(mod)
            if hasattr(mod, "register"):
                mod.register(self)
                self.log_message(f"Плагин загружен: {fn}")
        except Exception as e:
            self.log_message(f"Ошибка загрузки плагина {fn}: {e}")
```

The dynamic-import machinery is the environment: each file is paired with
the outcome importing and registering it would have. -/

/-- Outcome of handling one plugin file: the loader machinery produced no
spec/loader, `exec_module` raised, the module has no `register` attribute,
`register(main_window)` raised, or everything succeeded. -/
inductive PluginOutcome where
  | specNone
  | execRaises (err : String)
  | noRegister
  | registerRaises (err : String)
  | registerOk
deriving DecidableEq

/-- Log messages `load_plugins` appends while handling one `.py` file. -/
def pluginFileLogs (fn : String) (o : PluginOutcome) : List String :=
  match o with
  | .specNone => []
  | .execRaises e => ["Ошибка загрузки плагина " ++ fn ++ ": " ++ e]
  | .noRegister => []
  | .registerRaises e => ["Ошибка загрузки плагина " ++ fn ++ ": " ++ e]
  | .registerOk => ["Плагин загружен: " ++ fn]

/-- Body of `load_plugins` once the plugins directory exists: iterate over the
directory listing, skip names not ending in `.py`, handle each remaining file
and collect the log. -/
def load_plugins (files : List (String × PluginOutcome)) : List String :=
  match files with
  | [] => []
  | (fn, o) :: rest =>
    (if pyEndsWith fn ".py" then pluginFileLogs fn o else []) ++ load_plugins rest

/-- Whether the outcome is one of the two exception paths of the `try` body. -/
def failsLoading : PluginOutcome → Bool
  | .execRaises _ => true
  | .registerRaises _ => true
  | _ => false

/-- The single message logged for a failing plugin file. -/
def pluginErrorMsg (fn : String) (o : PluginOutcome) : String :=
  match o with
  | .execRaises e => "Ошибка загрузки плагина " ++ fn ++ ": " ++ e
  | .registerRaises e => "Ошибка загрузки плагина " ++ fn ++ ": " ++ e
  | _ => ""

/-! ### External process invocations (C4, C5, C6)

`run_adb_command`, `install_apks_thread` and `run_fastboot_command` all call
`subprocess.run(full_cmd, capture_output=True, text=True, timeout=...)`.
An `Invocation` records the argument vector and the timeout of one such call;
the environment is a function from invocations to results. -/

/-- One `subprocess.run` call: argument vector and `timeout=` value (seconds). -/
structure Invocation where
  argv : List String
  timeoutSec : Nat
deriving DecidableEq

/-- Result of a `subprocess.run` call as the call sites distinguish them:
normal completion (with captured stdout/stderr and return code),
`subprocess.TimeoutExpired`, `FileNotFoundError`, or any other exception. -/
inductive ExecResult where
  | completed (stdout stderr : String) (returncode : Int)
  | timedOut
  | fileNotFound (err : String)
  | raised (err : String)
deriving DecidableEq

/-- The invocation `run_adb_command` constructs for one target:
`['adb', '-s', dev] + command.split()` when a device is targeted,
`['adb'] + command.split()` for a global command, `timeout=30`. -/
def adbInvocation (dev : Option String) (command : String) : Invocation :=
  { argv := match dev with
      | some d => "adb" :: "-s" :: d :: pySplit command
      | none => "adb" :: pySplit command
    timeoutSec := 30 }

/-- Log lines `run_adb_command` emits for the result of one invocation.
`FileNotFoundError` is an `Exception`, so it takes the generic handler. -/
def adbResultLogs (r : ExecResult) : List String :=
  match r with
  | .completed out err rc =>
      (if out ≠ "" then ["Результат:", out] else [])
      ++ (if err ≠ "" then ["Ошибки:", err] else [])
      ++ (if rc ≠ 0 then ["Команда завершилась с кодом: " ++ toString rc] else [])
  | .timedOut => ["Команда превысила таймаут (30 сек.)"]
  | .fileNotFound e => ["Ошибка выполнения команды: " ++ e]
  | .raised e => ["Ошибка выполнения команды: " ++ e]

/-- The single log line of the `except` branch taken for a failed invocation
(`none` when the invocation completed normally). -/
def adbErrorLog (r : ExecResult) : Option String :=
  match r with
  | .completed _ _ _ => none
  | .timedOut => some "Команда превысила таймаут (30 сек.)"
  | .fileNotFound e => some ("Ошибка выполнения команды: " ++ e)
  | .raised e => some ("Ошибка выполнения команды: " ++ e)

/-- The `for dev in devices:` loop of `run_adb_command`: for each target,
log the command line, run it, log its outcome; collect the log lines and the
invocations issued. -/
def adbLoop (command : String) (exec : Invocation → ExecResult) :
    List (Option String) → List String × List Invocation
  | [] => ([], [])
  | dev :: rest =>
    let inv := adbInvocation dev command
    let tail := adbLoop command exec rest
    (("Выполняем: " ++ String.intercalate " " inv.argv) :: adbResultLogs (exec inv)
       ++ tail.1,
     inv :: tail.2)

/-- Model of `XHelperMainWindow.run_adb_command`: the target-selection logic
followed by the execution loop.  `selected` is the list of texts of
`device_list.selectedItems()`, `runAllChecked` the state of the
«Выполнять на всех выбранных» checkbox. -/
def run_adb_command (selected : List String) (runAllChecked : Bool)
    (command : String) (deviceSpecific : Bool)
    (exec : Invocation → ExecResult) : List String × List Invocation :=
  if deviceSpecific then
    match selected with
    | [] => (["Не выбрано устройство"], [])
    | d :: ds =>
      let devices := if runAllChecked then d :: ds else [d]
      adbLoop command exec (devices.map some)
  else
    adbLoop command exec [none]

/-- Model of `XHelperMainWindow.run_fastboot_command`: a single invocation
`['fastboot'] + command.split()` with `timeout=60` and its log lines. -/
def run_fastboot_command (command : String)
    (exec : Invocation → ExecResult) : List String × List Invocation :=
  let inv : Invocation := { argv := "fastboot" :: pySplit command, timeoutSec := 60 }
  let logs :=
    ("Fastboot: " ++ String.intercalate " " inv.argv) ::
      match exec inv with
      | .completed out err _ =>
          (if out ≠ "" then [out] else []) ++ (if err ≠ "" then [err] else [])
      | .timedOut => ["Fastboot‑команда превысила таймаут"]
      | .fileNotFound _ => ["fastboot не найден в PATH"]
      | .raised e => ["Ошибка fastboot: " ++ e]
  (logs, [inv])

/-! ### C2 / C5: the mass-install worker

Source: `XHelperMainWindow.install_apks_thread`.  Each APK file is installed
with `subprocess.run(['adb', 'install', '-r', apk_path], ..., timeout=360)`;
the `stop_installation` flag is polled at the top of every iteration. -/

/-- A per-item entry of the mass-install report. -/
structure InstallEntry where
  package : String
  status : String
  details : String
deriving DecidableEq

/-- The report dictionary `install_apks_thread` hands to `save_report`. -/
structure InstallReport where
  type : String
  timestamp : String
  total : Nat
  success : Nat
  failed : Nat
  entries : List InstallEntry
deriving DecidableEq

/-- Result of one run of the worker: the report plus the invocations issued. -/
structure InstallRun where
  report : InstallReport
  invocations : List Invocation
deriving DecidableEq

/-- Python `os.path.basename` for slash-separated paths. -/
def basename (path : String) : String :=
  (((splitOnChar (Char.ofNat 47) path.toList).getLast?).map
    (fun p => (⟨p⟩ : String))).getD path

/-- Effect of processing one APK file: the increments of `success` and
`failed` and the appended report entry, by the four branches of the loop
body's `try` statement. -/
def installStep (apk : String) (r : ExecResult) : Nat × Nat × InstallEntry :=
  match r with
  | .completed _ err rc =>
    if rc = 0 then (1, 0, ⟨basename apk, "success", "Installed"⟩)
    else (0, 1, ⟨basename apk, "failed", pyStrip err⟩)
  | .timedOut => (0, 1, ⟨basename apk, "timeout", "Превышен таймаут (6 мин.)"⟩)
  | .fileNotFound e => (0, 1, ⟨basename apk, "exception", e⟩)
  | .raised e => (0, 1, ⟨basename apk, "exception", e⟩)

/-- The installation loop.  `stopFlag i` is the value of
`self.stop_installation` observed at the top of iteration `i`; a `true`
breaks out of the loop. -/
def installLoop (stopFlag : Nat → Bool) :
    List (String × ExecResult) → Nat → Nat × Nat × List InstallEntry × List Invocation
  | [], _ => (0, 0, [], [])
  | (apk, r) :: rest, i =>
    if stopFlag i then (0, 0, [], [])
    else
      let step := installStep apk r
      let tail := installLoop stopFlag rest (i + 1)
      (step.1 + tail.1, step.2.1 + tail.2.1, step.2.2 :: tail.2.2.1,
       ⟨["adb", "install", "-r", apk], 360⟩ :: tail.2.2.2)

/-- Model of `XHelperMainWindow.install_apks_thread`: run the loop over the
selected APK files (paired with their subprocess outcomes) and build the
report; `total` is `len(self.apk_files)` regardless of early stopping. -/
def install_apks_thread (files : List (String × ExecResult))
    (stopFlag : Nat → Bool) (timestamp : String) : InstallRun :=
  let r := installLoop stopFlag files 0
  { report :=
      { type := "mass_install"
        timestamp := timestamp
        total := files.length
        success := r.1
        failed := r.2.1
        entries := r.2.2.1 }
    invocations := r.2.2.2 }

/-! ### C10: the mass-install controller state

Source: `start_mass_installation`, `stop_mass_installation`,
`mass_installation_finished`.  The modelled state keeps the fields the claim
is about plus a worker count (`workers`) standing for the running
`WorkerThread`s started for mass installation. -/

/-- The mass-install controller state held by the main window. -/
structure InstallUIState where
  apk_files : List String
  install_in_progress : Bool
  stop_installation : Bool
  workers : Nat
deriving DecidableEq

/-- Model of `start_mass_installation`: the two guard dialogs, then the state
changes and the worker-thread start.  The second component is the dialog
message shown, if any. -/
def start_mass_installation (s : InstallUIState) : InstallUIState × Option String :=
  if s.apk_files = [] then (s, some "Сначала выберите папку с APK‑файлами")
  else if s.install_in_progress then (s, some "Установка уже запущена")
  else ({ s with install_in_progress := true
                 stop_installation := false
                 workers := s.workers + 1 }, none)

/-- Model of `stop_mass_installation`: request cooperative cancellation. -/
def stop_mass_installation (s : InstallUIState) : InstallUIState :=
  if s.install_in_progress then { s with stop_installation := true } else s

/-- Model of `mass_installation_finished`: runs when a worker completes. -/
def mass_installation_finished (s : InstallUIState) : InstallUIState :=
  { s with install_in_progress := false, workers := s.workers - 1 }

/-- The operations of the mass-install state machine.  `finished` fires only
on completion of a running worker. -/
inductive InstallUIStep : InstallUIState → InstallUIState → Prop where
  | start (s : InstallUIState) : InstallUIStep s (start_mass_installation s).1
  | stop (s : InstallUIState) : InstallUIStep s (stop_mass_installation s)
  | finished (s : InstallUIState) (h : 1 ≤ s.workers) :
      InstallUIStep s (mass_installation_finished s)

/-- The «at most one installation in progress» invariant: never more than one
worker, and `install_in_progress` tracks exactly whether one is running. -/
def InstallInv (s : InstallUIState) : Prop :=
  s.workers ≤ 1 ∧ (s.install_in_progress = true ↔ s.workers = 1)

end XHelper

/-! ## Theorems for claims C7 and C8 -/

set_option maxRecDepth 4000 in
/-- Claim C7: the keycode validator `_is_valid_keycode` accepts every decimal
digit string `"0"` through `"255"` and rejects `"256"`, `"-1"` and `"abc"`. -/
theorem C7_keycode_validator :
    (∀ n : Nat, n < 256 → XHelper.is_valid_keycode (toString n) = true)
    ∧ XHelper.is_valid_keycode "256" = false
    ∧ XHelper.is_valid_keycode "-1" = false
    ∧ XHelper.is_valid_keycode "abc" = false := by
  refine ⟨?_, by decide, by decide, by decide⟩
  decide

/-- Witness for C7: the bounded statement applied at the boundary input 255. -/
theorem C7_keycode_validator_witness :
    XHelper.is_valid_keycode (toString 255) = true :=
  C7_keycode_validator.1 255 (by decide)

/-- Claim C8: `_color_for_percent` maps 0 to pure green, 50 to pure yellow and
100 to pure red. -/
theorem C8_color_for_percent :
    XHelper.color_for_percent 0 = "rgb(0,255,0)"
    ∧ XHelper.color_for_percent 50 = "rgb(255,255,0)"
    ∧ XHelper.color_for_percent 100 = "rgb(255,0,0)" := by
  refine ⟨by decide, by decide, by decide⟩

/-! ## Helper lemmas -/

namespace XHelper

/-- The invocations issued by the adb loop: exactly one per target, in order. -/
theorem adbLoop_invocations (command : String) (exec : Invocation → ExecResult) :
    ∀ devs : List (Option String),
      (adbLoop command exec devs).2 = devs.map (fun dev => adbInvocation dev command) := by
  intro devs
  induction devs with
  | nil => rfl
  | cons d rest ih => simp [adbLoop, ih]

/-- Every invocation of the install loop carries the 360-second timeout. -/
theorem installLoop_invocation_timeout (stopFlag : Nat → Bool) :
    ∀ (files : List (String × ExecResult)) (i : Nat),
      ∀ inv ∈ (installLoop stopFlag files i).2.2.2, inv.timeoutSec = 360 := by
  intro files
  induction files with
  | nil => intro i inv h; simp [installLoop] at h
  | cons f rest ih =>
    intro i inv h
    obtain ⟨apk, r⟩ := f
    by_cases hs : stopFlag i
    · simp [installLoop, hs] at h
    · simp only [installLoop, hs, if_neg, Bool.false_eq_true, ite_false,
        List.mem_cons] at h
      rcases h with h | h
      · subst h; rfl
      · exact ih (i + 1) inv h

/-- Totals and status counts of the install loop on a run that is never
stopped: one entry per file, `success` counts the `"success"` entries and
`failed` counts the `"failed"`, `"timeout"` and `"exception"` entries. -/
theorem installLoop_counts (stopFlag : Nat → Bool) :
    ∀ (files : List (String × ExecResult)) (i : Nat),
      (∀ j, j < files.length → stopFlag (i + j) = false) →
      (installLoop stopFlag files i).1 + (installLoop stopFlag files i).2.1
          = files.length
      ∧ (installLoop stopFlag files i).1
          = (installLoop stopFlag files i).2.2.1.countP (fun e => e.status == "success")
      ∧ (installLoop stopFlag files i).2.1
          = (installLoop stopFlag files i).2.2.1.countP
              (fun e => e.status == "failed" || e.status == "timeout" || e.status == "exception") := by
  intro files
  induction files with
  | nil => intro i _; simp [installLoop]
  | cons f rest ih =>
    intro i hstop
    obtain ⟨apk, r⟩ := f
    have h0 : stopFlag i = false := by
      have := hstop 0 (by simp)
      simpa using this
    have hrest : ∀ j, j < rest.length → stopFlag (i + 1 + j) = false := by
      intro j hj
      have := hstop (j + 1) (by simpa using Nat.succ_lt_succ hj)
      simpa [Nat.add_assoc, Nat.add_comm 1 j] using this
    obtain ⟨ht, hs, hf⟩ := ih (i + 1) hrest
    match r with
    | .completed out err rc =>
      by_cases hrc : rc = 0
      · simp [installLoop, h0, installStep, hrc, List.countP_cons, ht, hs, hf]
        omega
      · simp [installLoop, h0, installStep, hrc, List.countP_cons, ht, hs, hf]
        omega
    | .timedOut =>
      simp [installLoop, h0, installStep, List.countP_cons, ht, hs, hf]
      omega
    | .fileNotFound e =>
      simp [installLoop, h0, installStep, List.countP_cons, ht, hs, hf]
      omega
    | .raised e =>
      simp [installLoop, h0, installStep, List.countP_cons, ht, hs, hf]
      omega

end XHelper

/-! ## Theorems for claims C1, C2, C4, C5, C6, C10 -/

/-- Claim C1: a `.py` plugin file whose import (`exec_module`) or whose
`register(main_window)` call raises contributes exactly one log message, and
the loader's output on the remaining files is unchanged — one bad plugin
cannot halt startup. -/
theorem C1_plugin_loader_isolates_failures
    (pre post : List (String × XHelper.PluginOutcome)) (fn : String)
    (o : XHelper.PluginOutcome)
    (hpy : XHelper.pyEndsWith fn ".py" = true) (hfail : XHelper.failsLoading o = true) :
    XHelper.load_plugins (pre ++ (fn, o) :: post)
      = XHelper.load_plugins pre
        ++ XHelper.pluginErrorMsg fn o :: XHelper.load_plugins post := by
  induction pre with
  | nil =>
    cases o <;>
      simp_all [XHelper.load_plugins, XHelper.pluginFileLogs,
        XHelper.pluginErrorMsg, XHelper.failsLoading]
  | cons hd tl ih =>
    obtain ⟨f, oo⟩ := hd
    simp only [List.cons_append, XHelper.load_plugins, List.append_eq, ih,
      List.append_assoc]

/-- Witness for C1: a concrete three-file directory whose middle plugin raises
on import. -/
theorem C1_plugin_loader_isolates_failures_witness :
    XHelper.load_plugins
        ([("ok.py", XHelper.PluginOutcome.registerOk)]
          ++ ("bad.py", XHelper.PluginOutcome.execRaises "boom")
            :: [("next.py", XHelper.PluginOutcome.registerOk)])
      = XHelper.load_plugins [("ok.py", XHelper.PluginOutcome.registerOk)]
        ++ XHelper.pluginErrorMsg "bad.py" (XHelper.PluginOutcome.execRaises "boom")
          :: XHelper.load_plugins [("next.py", XHelper.PluginOutcome.registerOk)] :=
  C1_plugin_loader_isolates_failures _ _ _ _ (by decide) (by decide)

/-- Claim C4: a timeout or any other exception raised for one adb invocation
is caught and converted into exactly one log line, the invocation is issued
exactly once (no retry), the loop continues with the next device, and a
non-zero exit code is reported as a log line. -/
theorem C4_adb_error_handling (command : String)
    (exec : XHelper.Invocation → XHelper.ExecResult) :
    (∀ (dev : Option String) (rest : List (Option String)) (msg : String),
        XHelper.adbErrorLog (exec (XHelper.adbInvocation dev command)) = some msg →
        XHelper.adbLoop command exec (dev :: rest)
          = (("Выполняем: "
                ++ String.intercalate " " (XHelper.adbInvocation dev command).argv)
               :: msg :: (XHelper.adbLoop command exec rest).1,
             XHelper.adbInvocation dev command :: (XHelper.adbLoop command exec rest).2))
    ∧ (∀ (dev : Option String) (rest : List (Option String)) (out err : String) (rc : Int),
        exec (XHelper.adbInvocation dev command) = .completed out err rc → rc ≠ 0 →
        ("Команда завершилась с кодом: " ++ toString rc)
          ∈ (XHelper.adbLoop command exec (dev :: rest)).1) := by
  constructor
  · intro dev rest msg h
    match hr : exec (XHelper.adbInvocation dev command) with
    | .completed out err rc => simp [XHelper.adbErrorLog, hr] at h
    | .timedOut =>
      simp only [XHelper.adbErrorLog, hr, Option.some.injEq] at h
      simp [XHelper.adbLoop, XHelper.adbResultLogs, hr, h]
    | .fileNotFound e =>
      simp only [XHelper.adbErrorLog, hr, Option.some.injEq] at h
      simp [XHelper.adbLoop, XHelper.adbResultLogs, hr, h]
    | .raised e =>
      simp only [XHelper.adbErrorLog, hr, Option.some.injEq] at h
      simp [XHelper.adbLoop, XHelper.adbResultLogs, hr, h]
  · intro dev rest out err rc hr hrc
    simp [XHelper.adbLoop, XHelper.adbResultLogs, hr, hrc]

/-- Witness for C4: both parts applied to concrete devices and results. -/
theorem C4_adb_error_handling_witness :
    (XHelper.adbLoop "shell ls" (fun _ => XHelper.ExecResult.timedOut) [some "dev1"]
      = (("Выполняем: "
            ++ String.intercalate " "
                (XHelper.adbInvocation (some "dev1") "shell ls").argv)
           :: "Команда превысила таймаут (30 сек.)"
             :: (XHelper.adbLoop "shell ls" (fun _ => XHelper.ExecResult.timedOut) []).1,
         XHelper.adbInvocation (some "dev1") "shell ls"
           :: (XHelper.adbLoop "shell ls" (fun _ => XHelper.ExecResult.timedOut) []).2))
    ∧ ("Команда завершилась с кодом: " ++ toString (1 : Int))
        ∈ (XHelper.adbLoop "reboot" (fun _ => XHelper.ExecResult.completed "" "" 1)
            [some "dev1"]).1 :=
  ⟨(C4_adb_error_handling "shell ls" (fun _ => XHelper.ExecResult.timedOut)).1
      (some "dev1") [] "Команда превысила таймаут (30 сек.)" rfl,
   (C4_adb_error_handling "reboot" (fun _ => XHelper.ExecResult.completed "" "" 1)).2
      (some "dev1") [] "" "" 1 rfl (by decide)⟩

/-- Counterexample for C5: the claim «every invocation carries a timeout
between 5 and 30 seconds» fails on a concrete mass-install run; the
`adb install` invocation carries `timeout=360`. -/
theorem C5_timeout_range_counterexample :
    ((XHelper.install_apks_thread [("app.apk", XHelper.ExecResult.timedOut)]
        (fun _ => false) "2025-01-01T00:00:00").invocations.all
      (fun inv => 5 ≤ inv.timeoutSec && inv.timeoutSec ≤ 30)) = false := by
  decide

/-- Claim C5 (amended): every invocation carries a fixed call-site timeout:
30 s in `run_adb_command` (within 5–30), 360 s in `install_apks_thread` and
60 s in `run_fastboot_command` (both outside 5–30). -/
theorem C5_fixed_per_site_timeouts (command : String)
    (exec : XHelper.Invocation → XHelper.ExecResult)
    (files : List (String × XHelper.ExecResult)) (stopFlag : Nat → Bool)
    (ts : String) :
    (∀ (devs : List (Option String)) (inv : XHelper.Invocation),
        inv ∈ (XHelper.adbLoop command exec devs).2 →
        inv.timeoutSec = 30 ∧ 5 ≤ inv.timeoutSec ∧ inv.timeoutSec ≤ 30)
    ∧ (∀ inv ∈ (XHelper.install_apks_thread files stopFlag ts).invocations,
        inv.timeoutSec = 360 ∧ ¬ (5 ≤ inv.timeoutSec ∧ inv.timeoutSec ≤ 30))
    ∧ (∀ inv ∈ (XHelper.run_fastboot_command command exec).2,
        inv.timeoutSec = 60 ∧ ¬ (5 ≤ inv.timeoutSec ∧ inv.timeoutSec ≤ 30)) := by
  refine ⟨?_, ?_, ?_⟩
  · intro devs inv hmem
    rw [XHelper.adbLoop_invocations] at hmem
    obtain ⟨dev, _, hdev⟩ := List.mem_map.mp hmem
    subst hdev
    have ht : (XHelper.adbInvocation dev command).timeoutSec = 30 := rfl
    exact ⟨ht, by omega, by omega⟩
  · intro inv hmem
    have h360 := XHelper.installLoop_invocation_timeout stopFlag files 0 inv hmem
    exact ⟨h360, by omega⟩
  · intro inv hmem
    simp only [XHelper.run_fastboot_command, List.mem_singleton] at hmem
    subst hmem
    have ht : ({ argv := "fastboot" :: XHelper.pySplit command, timeoutSec := 60 } :
        XHelper.Invocation).timeoutSec = 60 := rfl
    exact ⟨ht, by omega⟩

/-- Witness for C5 (amended): one invocation of each runner. -/
theorem C5_fixed_per_site_timeouts_witness :
    ((XHelper.adbInvocation (some "d1") "shell ls").timeoutSec = 30
      ∧ 5 ≤ (XHelper.adbInvocation (some "d1") "shell ls").timeoutSec
      ∧ (XHelper.adbInvocation (some "d1") "shell ls").timeoutSec ≤ 30)
    ∧ ((⟨["adb", "install", "-r", "app.apk"], 360⟩ : XHelper.Invocation).timeoutSec = 360
      ∧ ¬ (5 ≤ (⟨["adb", "install", "-r", "app.apk"], 360⟩ : XHelper.Invocation).timeoutSec
            ∧ (⟨["adb", "install", "-r", "app.apk"], 360⟩ : XHelper.Invocation).timeoutSec ≤ 30))
    ∧ ((⟨"fastboot" :: XHelper.pySplit "devices", 60⟩ : XHelper.Invocation).timeoutSec = 60
      ∧ ¬ (5 ≤ (⟨"fastboot" :: XHelper.pySplit "devices", 60⟩ : XHelper.Invocation).timeoutSec
            ∧ (⟨"fastboot" :: XHelper.pySplit "devices", 60⟩ : XHelper.Invocation).timeoutSec ≤ 30)) :=
  ⟨(C5_fixed_per_site_timeouts "shell ls" (fun _ => XHelper.ExecResult.timedOut) [] (fun _ => false) "ts").1
      [some "d1"] (XHelper.adbInvocation (some "d1") "shell ls")
      (by simp [XHelper.adbLoop_invocations]),
   (C5_fixed_per_site_timeouts "shell ls" (fun _ => XHelper.ExecResult.timedOut)
      [("app.apk", XHelper.ExecResult.timedOut)] (fun _ => false) "ts").2.1
      ⟨["adb", "install", "-r", "app.apk"], 360⟩ (by decide),
   (C5_fixed_per_site_timeouts "devices" (fun _ => XHelper.ExecResult.timedOut) [] (fun _ => false) "ts").2.2
      ⟨"fastboot" :: XHelper.pySplit "devices", 60⟩
      (by simp [XHelper.run_fastboot_command])⟩

/-- Claim C6: the target-selection contract of `run_adb_command` with
`device_specific=True`: no selection gives exactly one log message and no
invocation; with the «run on all selected» checkbox one invocation
`['adb', '-s', dev] + command.split()` per selected device; without it one
invocation targeting the first selected device. -/
theorem C6_adb_target_selection (command : String)
    (exec : XHelper.Invocation → XHelper.ExecResult) :
    (∀ runAll : Bool,
        XHelper.run_adb_command [] runAll command true exec
          = (["Не выбрано устройство"], []))
    ∧ (∀ selected : List String, selected ≠ [] →
        (XHelper.run_adb_command selected true command true exec).2
          = selected.map (fun d => XHelper.adbInvocation (some d) command))
    ∧ (∀ (d : String) (ds : List String),
        (XHelper.run_adb_command (d :: ds) false command true exec).2
          = [XHelper.adbInvocation (some d) command]) := by
  refine ⟨fun _ => rfl, ?_, ?_⟩
  · intro selected hne
    match selected with
    | [] => exact absurd rfl hne
    | d :: ds =>
      simp [XHelper.run_adb_command, XHelper.adbLoop_invocations, List.map_map]
  · intro d ds
    simp [XHelper.run_adb_command, XHelper.adbLoop_invocations]

/-- Witness for C6: the three selection modes on concrete device lists. -/
theorem C6_adb_target_selection_witness :
    (XHelper.run_adb_command [] false "shell ls" true
        (fun _ => XHelper.ExecResult.timedOut) = (["Не выбрано устройство"], []))
    ∧ ((XHelper.run_adb_command ["d1", "d2"] true "shell ls" true
          (fun _ => XHelper.ExecResult.timedOut)).2
        = ["d1", "d2"].map (fun d => XHelper.adbInvocation (some d) "shell ls"))
    ∧ ((XHelper.run_adb_command ["d1", "d2"] false "shell ls" true
          (fun _ => XHelper.ExecResult.timedOut)).2
        = [XHelper.adbInvocation (some "d1") "shell ls"]) :=
  ⟨(C6_adb_target_selection "shell ls" (fun _ => XHelper.ExecResult.timedOut)).1 false,
   (C6_adb_target_selection "shell ls" (fun _ => XHelper.ExecResult.timedOut)).2.1
      ["d1", "d2"] (by decide),
   (C6_adb_target_selection "shell ls" (fun _ => XHelper.ExecResult.timedOut)).2.2
      "d1" ["d2"]⟩

/-- Counterexample for C2: on a fully processed run with one timeout, the
report's `failed` field is 1 but no entry has status string `"failed"` (the
entry's status is `"timeout"`), so «failed equals the number of report
entries whose status string is 'failed'» is false. -/
theorem C2_failed_status_counterexample :
    (XHelper.install_apks_thread [("app.apk", XHelper.ExecResult.timedOut)]
        (fun _ => false) "2025-01-01T00:00:00").report.failed = 1
    ∧ ((XHelper.install_apks_thread [("app.apk", XHelper.ExecResult.timedOut)]
          (fun _ => false) "2025-01-01T00:00:00").report.entries.countP
        (fun e => e.status == "failed")) = 0 := by
  decide

/-- Claim C2 (amended): on every run that processes all `N` selected files,
the report satisfies `success + failed == total` with `total == N`, `success`
equals the number of entries whose status is `"success"`, and `failed` equals
the number of entries whose status is `"failed"`, `"timeout"` or
`"exception"`. -/
theorem C2_report_totals (files : List (String × XHelper.ExecResult))
    (stopFlag : Nat → Bool) (ts : String)
    (hrun : ∀ j, j < files.length → stopFlag j = false) :
    (XHelper.install_apks_thread files stopFlag ts).report.total = files.length
    ∧ (XHelper.install_apks_thread files stopFlag ts).report.success
        + (XHelper.install_apks_thread files stopFlag ts).report.failed
        = (XHelper.install_apks_thread files stopFlag ts).report.total
    ∧ (XHelper.install_apks_thread files stopFlag ts).report.success
        = (XHelper.install_apks_thread files stopFlag ts).report.entries.countP
            (fun e => e.status == "success")
    ∧ (XHelper.install_apks_thread files stopFlag ts).report.failed
        = (XHelper.install_apks_thread files stopFlag ts).report.entries.countP
            (fun e => e.status == "failed" || e.status == "timeout"
              || e.status == "exception") := by
  have h := XHelper.installLoop_counts stopFlag files 0 (by simpa using hrun)
  exact ⟨rfl, h.1, h.2.1, h.2.2⟩

/-- Witness for C2 (amended): a two-file run with one success and one
timeout, never stopped. -/
theorem C2_report_totals_witness :
    (XHelper.install_apks_thread
        [("a.apk", XHelper.ExecResult.completed "" "" 0), ("b.apk", XHelper.ExecResult.timedOut)]
        (fun _ => false) "ts").report.total
      = ([("a.apk", XHelper.ExecResult.completed "" "" 0), ("b.apk", XHelper.ExecResult.timedOut)] :
          List (String × XHelper.ExecResult)).length
    ∧ (XHelper.install_apks_thread
        [("a.apk", XHelper.ExecResult.completed "" "" 0), ("b.apk", XHelper.ExecResult.timedOut)]
        (fun _ => false) "ts").report.success
        + (XHelper.install_apks_thread
            [("a.apk", XHelper.ExecResult.completed "" "" 0), ("b.apk", XHelper.ExecResult.timedOut)]
            (fun _ => false) "ts").report.failed
        = (XHelper.install_apks_thread
            [("a.apk", XHelper.ExecResult.completed "" "" 0), ("b.apk", XHelper.ExecResult.timedOut)]
            (fun _ => false) "ts").report.total
    ∧ (XHelper.install_apks_thread
        [("a.apk", XHelper.ExecResult.completed "" "" 0), ("b.apk", XHelper.ExecResult.timedOut)]
        (fun _ => false) "ts").report.success
        = (XHelper.install_apks_thread
            [("a.apk", XHelper.ExecResult.completed "" "" 0), ("b.apk", XHelper.ExecResult.timedOut)]
            (fun _ => false) "ts").report.entries.countP
            (fun e => e.status == "success")
    ∧ (XHelper.install_apks_thread
        [("a.apk", XHelper.ExecResult.completed "" "" 0), ("b.apk", XHelper.ExecResult.timedOut)]
        (fun _ => false) "ts").report.failed
        = (XHelper.install_apks_thread
            [("a.apk", XHelper.ExecResult.completed "" "" 0), ("b.apk", XHelper.ExecResult.timedOut)]
            (fun _ => false) "ts").report.entries.countP
            (fun e => e.status == "failed" || e.status == "timeout"
              || e.status == "exception") :=
  C2_report_totals
    [("a.apk", XHelper.ExecResult.completed "" "" 0), ("b.apk", XHelper.ExecResult.timedOut)]
    (fun _ => false) "ts" (fun _ _ => rfl)

/-- Counterexample for C10: in the state with a running installation but an
empty APK list (reachable by re-selecting an APK-less folder mid-install),
`start_mass_installation` shows the folder warning, not the information
dialog, although `install_in_progress` is true. -/
theorem C10_busy_dialog_counterexample :
    (XHelper.start_mass_installation
        ⟨[], true, false, 1⟩).2 = some "Сначала выберите папку с APK‑файлами"
    ∧ (some "Сначала выберите папку с APK‑файлами" : Option String)
        ≠ some "Установка уже запущена"
    ∧ (⟨[], true, false, 1⟩ : XHelper.InstallUIState).install_in_progress = true := by
  decide

/-- Claim C10 (amended): at most one mass installation is in progress at any
time.  When `install_in_progress` is true, `start_mass_installation` returns
without changing any state (showing the information dialog whenever the APK
list is non-empty); when it is false and APKs are selected, starting sets
`install_in_progress` to true, resets `stop_installation` to false and starts
one worker; `mass_installation_finished` resets `install_in_progress`; and
every operation preserves the invariant that at most one worker runs, with
`install_in_progress` tracking it exactly. -/
theorem C10_single_installation_invariant :
    (∀ s : XHelper.InstallUIState, s.install_in_progress = true →
        (XHelper.start_mass_installation s).1 = s
        ∧ (s.apk_files ≠ [] →
            (XHelper.start_mass_installation s).2 = some "Установка уже запущена"))
    ∧ (∀ s : XHelper.InstallUIState,
        s.install_in_progress = false → s.apk_files ≠ [] →
        (XHelper.start_mass_installation s).1.install_in_progress = true
        ∧ (XHelper.start_mass_installation s).1.stop_installation = false
        ∧ (XHelper.start_mass_installation s).1.workers = s.workers + 1)
    ∧ (∀ s : XHelper.InstallUIState,
        (XHelper.mass_installation_finished s).install_in_progress = false)
    ∧ (∀ s s' : XHelper.InstallUIState,
        XHelper.InstallInv s → XHelper.InstallUIStep s s' → XHelper.InstallInv s') := by
  refine ⟨?_, ?_, fun s => rfl, ?_⟩
  · intro s hprog
    by_cases hapk : s.apk_files = []
    · exact ⟨by simp [XHelper.start_mass_installation, hapk], fun h => absurd hapk h⟩
    · exact ⟨by simp [XHelper.start_mass_installation, hapk, hprog],
        fun _ => by simp [XHelper.start_mass_installation, hapk, hprog]⟩
  · intro s hprog hapk
    simp [XHelper.start_mass_installation, hapk, hprog]
  · intro s s' hinv hstep
    obtain ⟨hw, hp⟩ := hinv
    cases hstep with
    | start =>
      by_cases hapk : s.apk_files = []
      · simpa [XHelper.start_mass_installation, hapk] using ⟨hw, hp⟩
      · by_cases hprog : s.install_in_progress = true
        · simpa [XHelper.start_mass_installation, hapk, hprog] using ⟨hw, hp⟩
        · have hw0 : s.workers = 0 := by
            rcases Nat.lt_or_ge s.workers 1 with h | h
            · omega
            · exact absurd (hp.mpr (by omega)) hprog
          simp [XHelper.start_mass_installation, hapk, hprog, XHelper.InstallInv, hw0]
    | stop =>
      by_cases hprog : s.install_in_progress = true <;>
        simp [XHelper.stop_mass_installation, hprog, XHelper.InstallInv, hw, hp] <;>
        simp_all [XHelper.InstallInv]
    | finished h =>
      have hw1 : s.workers = 1 := by
        rcases Nat.lt_or_ge s.workers 1 with hlt | hge
        · omega
        · omega
      simp [XHelper.mass_installation_finished, XHelper.InstallInv, hw1]

/-- Witness for C10 (amended): the guard, the start transition, the finish
transition and the invariant on concrete states. -/
theorem C10_single_installation_invariant_witness :
    ((XHelper.start_mass_installation ⟨["a.apk"], true, false, 1⟩).1
        = ⟨["a.apk"], true, false, 1⟩
      ∧ ((⟨["a.apk"], true, false, 1⟩ : XHelper.InstallUIState).apk_files ≠ [] →
          (XHelper.start_mass_installation ⟨["a.apk"], true, false, 1⟩).2
            = some "Установка уже запущена"))
    ∧ ((XHelper.start_mass_installation
          ⟨["a.apk"], false, true, 0⟩).1.install_in_progress = true
      ∧ (XHelper.start_mass_installation
          ⟨["a.apk"], false, true, 0⟩).1.stop_installation = false
      ∧ (XHelper.start_mass_installation ⟨["a.apk"], false, true, 0⟩).1.workers
          = (⟨["a.apk"], false, true, 0⟩ : XHelper.InstallUIState).workers + 1)
    ∧ (XHelper.mass_installation_finished
        ⟨["a.apk"], true, false, 1⟩).install_in_progress = false
    ∧ XHelper.InstallInv
        (XHelper.start_mass_installation ⟨["a.apk"], false, false, 0⟩).1 :=
  ⟨(C10_single_installation_invariant).1 ⟨["a.apk"], true, false, 1⟩ rfl,
   (C10_single_installation_invariant).2.1 ⟨["a.apk"], false, true, 0⟩ rfl (by decide),
   (C10_single_installation_invariant).2.2.1 ⟨["a.apk"], true, false, 1⟩,
   (C10_single_installation_invariant).2.2.2 ⟨["a.apk"], false, false, 0⟩ _
     ⟨by decide, by decide⟩
     (XHelper.InstallUIStep.start ⟨["a.apk"], false, false, 0⟩)⟩

namespace XHelper

/-! ### C9: the battery-level parsers

Two parsers are claimed about.  `XHelperMainWindow.update_monitor` (alpha;
`update_device_info` of the unknown version is identical up to the default
string and an enclosing `try`):

```python
level = "?"
for line in bat.splitlines():
    if "level:" in line:
        level = line.split(":")[1].strip()
        break
```

and `_parse_battery_output` of `plugins/battery_monitor_extended.py`:

```python
data = {}
for line in output.splitlines():
    if ':' not in line:
        continue
    key, val = line.split(':', 1)
    data[key.strip().lower()] = val.strip()
level = int(data.get('level', -1))
```

Only the `level` field is modelled (`voltage`/`temperature`/`status` play no
role in the claims; `temperature` involves float division). -/

/-- Python `int(s)` on a string: strip, optional sign, decimal digits;
`none` models the `ValueError` (digit-group underscores are not modelled). -/
def pyIntOfString (s : String) : Option Int :=
  match pyStripList s.toList with
  | [] => none
  | c :: rest =>
    if c = '-' then
      if rest ≠ [] ∧ rest.all isAsciiDigit then some (-(digitsVal rest : Int)) else none
    else if c = '+' then
      if rest ≠ [] ∧ rest.all isAsciiDigit then some (digitsVal rest : Int) else none
    else if (c :: rest).all isAsciiDigit then some (digitsVal (c :: rest) : Int)
    else none

/-- Python dict assignment `d[k] = v`: overwrite in place or append. -/
def setStr (d : List (String × String)) (k v : String) : List (String × String) :=
  match d with
  | [] => [(k, v)]
  | (k', v') :: rest => if k' = k then (k', v) :: rest else (k', v') :: setStr rest k v

/-- Python dict lookup `d.get(k)`: first (hence unique) matching key. -/
def getStr (d : List (String × String)) (k : String) : Option String :=
  match d with
  | [] => none
  | (k', v') :: rest => if k' = k then some v' else getStr rest k

/-- One iteration of the dict-building loop of `_parse_battery_output`. -/
def batteryLine (d : List (String × String)) (line : String) : List (String × String) :=
  match splitFirstColon line.toList with
  | none => d
  | some (k, v) => setStr d ⟨pyLowerList (pyStripList k)⟩ ⟨pyStripList v⟩

/-- The dict `_parse_battery_output` builds from the dumpsys output. -/
def batteryDict (lines : List String) : List (String × String) :=
  lines.foldl batteryLine []

/-- The `level` field of `_parse_battery_output`:
`int(data.get('level', -1))`; `none` is the propagated `ValueError`. -/
def parse_battery_level (output : String) : Option Int :=
  match getStr (batteryDict (pySplitlines output)) "level" with
  | none => some (-1)
  | some v => pyIntOfString v

/-- The key a line contributes to the battery dict, if any. -/
def lineKey (l : String) : Option String :=
  (splitFirstColon l.toList).map (fun kv => (⟨pyLowerList (pyStripList kv.1)⟩ : String))

/-- The battery-level extraction of `update_monitor`: the first line
containing `"level:"`, split at colons, second piece, stripped.  The inner
default is unreachable (a line containing `"level:"` contains a colon, so
`split(":")` has a second element). -/
def update_monitor_level (out : String) : String :=
  match (pySplitlines out).find? (fun l => containsSub l "level:") with
  | some line =>
    match (splitOnChar (Char.ofNat 58) line.toList).get? 1 with
    | some piece => (⟨pyStripList piece⟩ : String)
    | none => "?"
  | none => "?"

/-- Lookup after an overwrite of the same key. -/
theorem getStr_setStr_self (d : List (String × String)) (k v : String) :
    getStr (setStr d k v) k = some v := by
  induction d with
  | nil => simp [setStr, getStr]
  | cons kv rest ih =>
    obtain ⟨k', v'⟩ := kv
    by_cases hk : k' = k
    · simp [setStr, getStr, hk]
    · simp [setStr, getStr, hk, ih]

/-- Lookup after an overwrite of a different key. -/
theorem getStr_setStr_other (d : List (String × String)) (k' v k : String)
    (hne : k' ≠ k) :
    getStr (setStr d k' v) k = getStr d k := by
  induction d with
  | nil => simp [setStr, getStr, hne]
  | cons kv rest ih =>
    obtain ⟨k'', v''⟩ := kv
    by_cases hk : k'' = k'
    · subst hk
      simp [setStr, getStr, hne, Ne.symm hne]
    · simp [setStr, getStr, hk, ih]

/-- Once the dict maps `level` to `"76"`, further lines that are either the
literal `level: 76` or carry a different key leave that binding intact. -/
theorem batteryDict_preserve (rest : List String) :
    ∀ d : List (String × String),
      (∀ l ∈ rest, l = "level: 76" ∨ lineKey l ≠ some "level") →
      getStr d "level" = some "76" →
      getStr (rest.foldl batteryLine d) "level" = some "76" := by
  induction rest with
  | nil => intro d _ hd; simpa using hd
  | cons l rest ih =>
    intro d hl hd
    rw [List.foldl_cons]
    rcases hl l (by simp) with hlit | hkey
    · subst hlit
      refine ih _ (fun x hx => hl x (by simp [hx])) ?_
      have hline : batteryLine d "level: 76" = setStr d "level" "76" := rfl
      rw [hline, getStr_setStr_self]
    · refine ih _ (fun x hx => hl x (by simp [hx])) ?_
      match hsp : splitFirstColon l.toList with
      | none =>
        have hbl : batteryLine d l = d := by
          unfold batteryLine
          rw [hsp]
        rw [hbl]
        exact hd
      | some (k, v) =>
        have hbl : batteryLine d l
            = setStr d ⟨pyLowerList (pyStripList k)⟩ ⟨pyStripList v⟩ := by
          unfold batteryLine
          rw [hsp]
        have hlk : lineKey l = some (⟨pyLowerList (pyStripList k)⟩ : String) := by
          unfold lineKey
          rw [hsp]
          rfl
        have hkne : (⟨pyLowerList (pyStripList k)⟩ : String) ≠ "level" := by
          intro hcontra
          exact hkey (hlk.trans (by rw [hcontra]))
        rw [hbl, getStr_setStr_other _ _ _ _ hkne]
        exact hd

/-- If `level: 76` occurs among the lines and every other line carries no
`level` key, the final dict maps `level` to `"76"`. -/
theorem batteryDict_level (lines : List String)
    (hmem : "level: 76" ∈ lines)
    (honly : ∀ l ∈ lines, l ≠ "level: 76" → lineKey l ≠ some "level") :
    getStr (batteryDict lines) "level" = some "76" := by
  unfold batteryDict
  generalize hD : ([] : List (String × String)) = d
  clear hD
  induction lines generalizing d with
  | nil => simp at hmem
  | cons l rest ih =>
    by_cases hl : l = "level: 76"
    · subst hl
      rw [List.foldl_cons]
      apply batteryDict_preserve
      · intro x hx
        by_cases hxl : x = "level: 76"
        · exact Or.inl hxl
        · exact Or.inr (honly x (by simp [hx]) hxl)
      · have hline : batteryLine d "level: 76" = setStr d "level" "76" := rfl
        rw [hline, getStr_setStr_self]
    · have hrest : "level: 76" ∈ rest := by
        rcases List.mem_cons.mp hmem with h | h
        · exact absurd h.symm hl
        · exact h
      rw [List.foldl_cons]
      exact ih hrest (fun x hx hne => honly x (by simp [hx]) hne) _

/-- The first-match scan of `update_monitor` finds the literal line when no
earlier line contains `"level:"`. -/
theorem find_level_line (lines : List String)
    (hmem : "level: 76" ∈ lines)
    (honly : ∀ l ∈ lines, l ≠ "level: 76" → containsSub l "level:" = false) :
    lines.find? (fun l => containsSub l "level:") = some "level: 76" := by
  induction lines with
  | nil => simp at hmem
  | cons l rest ih =>
    by_cases hl : l = "level: 76"
    · subst hl
      exact List.find?_cons_of_pos _ (by decide)
    · have hneg : containsSub l "level:" = false := honly l (by simp) hl
      rw [List.find?_cons_of_neg _ (by simp [hneg])]
      refine ih ?_ (fun x hx hne => honly x (by simp [hx]) hne)
      rcases List.mem_cons.mp hmem with h | h
      · exact absurd h.symm hl
      · exact h

end XHelper

/-- Counterexample for C9: a dumpsys output containing the literal line
`level: 76` followed by a second level line.  The dict of
`_parse_battery_output` is overwritten by the later line, so the extracted
level is 50, not 76. -/
theorem C9_second_level_line_counterexample :
    "level: 76" ∈ XHelper.pySplitlines "level: 76\nlevel: 50"
    ∧ XHelper.parse_battery_level "level: 76\nlevel: 50" = some 50
    ∧ (50 : Int) ≠ 76 := by
  refine ⟨by decide, by decide, by decide⟩

/-- Claim C9 (amended): for every dumpsys-battery output that contains the
literal line `level: 76` and in which no other line mentions a battery level
(contains the substring `"level:"` or carries the dict key `level`), the
main-window monitor parser extracts the string `"76"` and
`_parse_battery_output`'s `level` field is 76. -/
theorem C9_battery_level_extraction (out : String)
    (hmem : "level: 76" ∈ XHelper.pySplitlines out)
    (honly : ∀ l ∈ XHelper.pySplitlines out, l ≠ "level: 76" →
        XHelper.containsSub l "level:" = false ∧ XHelper.lineKey l ≠ some "level") :
    XHelper.update_monitor_level out = "76"
    ∧ XHelper.parse_battery_level out = some 76 := by
  constructor
  · unfold XHelper.update_monitor_level
    rw [XHelper.find_level_line _ hmem (fun l hl hne => (honly l hl hne).1)]
    decide
  · unfold XHelper.parse_battery_level
    rw [XHelper.batteryDict_level _ hmem (fun l hl hne => (honly l hl hne).2)]
    decide

/-- Witness for C9 (amended): a realistic three-line dumpsys excerpt. -/
theorem C9_battery_level_extraction_witness :
    XHelper.update_monitor_level "AC powered: false\nlevel: 76\nscale: 100" = "76"
    ∧ XHelper.parse_battery_level "AC powered: false\nlevel: 76\nscale: 100" = some 76 :=
  C9_battery_level_extraction "AC powered: false\nlevel: 76\nscale: 100"
    (by decide) (by decide)

namespace XHelper

/-! ### C3: settings persistence

Source (`unknown ver.py`):

```python
def load_settings(self):
    if CONFIG_PATH.is_file():
        try:
            with open(CONFIG_PATH, "r", encoding="utf-8") as f:
                self.settings.update(json.load(f))
        except Exception as e:
            self.log_message(f"[SETTINGS] Не удалось загрузить: {e}")

def save_settings(self):
    try:
        with open(CONFIG_PATH, "w", encoding="utf-8") as f:
            json.dump(self.settings, f, ensure_ascii=False, indent=4)
    except Exception as e:
        self.log_message(f"[SETTINGS] Не удалось сохранить: {e}")
```

The settings object is a string-keyed dict whose values are strings, booleans
and one nested string-keyed dict (`hotkeys`), so the JSON value domain is
modelled by `JValue`.  `dumpVal` reproduces `json.dump` with
`ensure_ascii=False, indent=4` on that domain (named control-character
escapes; the `\uXXXX` escapes Python emits for other control characters are
outside the modelled character set).  `parseVal` models `json.load` on the
same grammar fragment. -/

mutual
/-- JSON values of the settings domain: strings, booleans, objects. -/
inductive JValue where
  | str (s : String)
  | bool (b : Bool)
  | obj (kvs : JMembers)
/-- Ordered members of a JSON object (a Python dict's items). -/
inductive JMembers where
  | nil
  | cons (k : String) (v : JValue) (rest : JMembers)
end

/-- Characters the modelled escaping covers: everything that is not an
unmodelled control character (code < 32 other than `\b \t \n \f \r`). -/
def jsonSafe (c : Char) : Bool :=
  32 ≤ c.toNat || c.toNat = 8 || c.toNat = 9 || c.toNat = 10
    || c.toNat = 12 || c.toNat = 13

/-- The escaping of one character in Python's JSON encoder
(`ensure_ascii=False`). -/
def escapeChar (c : Char) : List Char :=
  if c = '\\' then ['\\', '\\']
  else if c = '"' then ['\\', '"']
  else if c = Char.ofNat 10 then ['\\', 'n']
  else if c = Char.ofNat 9 then ['\\', 't']
  else if c = Char.ofNat 13 then ['\\', 'r']
  else if c = Char.ofNat 8 then ['\\', 'b']
  else if c = Char.ofNat 12 then ['\\', 'f']
  else [c]

/-- The decoding of a character escape in Python's JSON scanner
(`\uXXXX` escapes are outside the modelled fragment). -/
def unescapeChar (e : Char) : Option Char :=
  if e = '\\' then some '\\'
  else if e = '"' then some '"'
  else if e = '/' then some '/'
  else if e = 'n' then some (Char.ofNat 10)
  else if e = 't' then some (Char.ofNat 9)
  else if e = 'r' then some (Char.ofNat 13)
  else if e = 'b' then some (Char.ofNat 8)
  else if e = 'f' then some (Char.ofNat 12)
  else none

/-- The indentation prefix `json.dump(..., indent=4)` writes at nesting
depth `n`. -/
def pad (n : Nat) : List Char :=
  List.replicate (4 * n) ' '

mutual
/-- Serialization of a value at nesting depth `ind`, as `json.dump` with
`ensure_ascii=False, indent=4` writes it. -/
def dumpVal : JValue → Nat → List Char
  | .str s, _ => '"' :: (s.toList.map escapeChar).flatten ++ ['"']
  | .bool true, _ => ['t', 'r', 'u', 'e']
  | .bool false, _ => ['f', 'a', 'l', 's', 'e']
  | .obj .nil, _ => [Char.ofNat 123, Char.ofNat 125]
  | .obj (.cons k v rest), ind =>
      Char.ofNat 123 :: Char.ofNat 10
        :: (dumpMembers (.cons k v rest) (ind + 1)
            ++ Char.ofNat 10 :: (pad ind ++ [Char.ofNat 125]))
/-- Serialization of a non-empty member list at item indentation `ind`:
items separated by `",\n"`, each prefixed by its pad, keys and values
separated by `": "`. -/
def dumpMembers : JMembers → Nat → List Char
  | .nil, _ => []
  | .cons k v .nil, ind =>
      pad ind ++ '"' :: ((k.toList.map escapeChar).flatten
        ++ '"' :: ':' :: ' ' :: dumpVal v ind)
  | .cons k v (.cons k' v' rest), ind =>
      pad ind ++ '"' :: ((k.toList.map escapeChar).flatten
        ++ '"' :: ':' :: ' ' :: (dumpVal v ind
          ++ ',' :: Char.ofNat 10 :: dumpMembers (.cons k' v' rest) ind))
end

/-- JSON whitespace as Python's scanner skips it. -/
def isJsonWs (c : Char) : Bool :=
  c = ' ' || c.toNat = 9 || c.toNat = 10 || c.toNat = 13

/-- Skip leading JSON whitespace. -/
def skipWs : List Char → List Char
  | [] => []
  | c :: cs => if isJsonWs c then skipWs cs else c :: cs

/-- Parse the body of a JSON string (the opening quote already consumed):
returns the decoded characters and the input after the closing quote. -/
def parseStringBody : List Char → Option (List Char × List Char)
  | [] => none
  | c :: cs =>
    if c = '"' then some ([], cs)
    else if c = '\\' then
      match cs with
      | [] => none
      | e :: cs' =>
        match unescapeChar e, parseStringBody cs' with
        | some u, some (s, r) => some (u :: s, r)
        | _, _ => none
    else
      match parseStringBody cs with
      | some (s, r) => some (c :: s, r)
      | none => none

mutual
/-- Parse one JSON value of the settings grammar (string, boolean or
object), fuelled to make the nesting recursion structural. -/
def parseVal : Nat → List Char → Option (JValue × List Char)
  | 0, _ => none
  | fuel + 1, cs =>
    match skipWs cs with
    | [] => none
    | c :: cs' =>
      if c = '"' then
        match parseStringBody cs' with
        | some (s, r) => some (.str ⟨s⟩, r)
        | none => none
      else if c = Char.ofNat 123 then
        match skipWs cs' with
        | [] => none
        | c2 :: r2 =>
          if c2 = Char.ofNat 125 then some (.obj .nil, r2)
          else
            match parseMembers fuel (c2 :: r2) with
            | some (kvs, r) => some (.obj kvs, r)
            | none => none
      else if c = 't' then
        match cs' with
        | 'r' :: 'u' :: 'e' :: r => some (.bool true, r)
        | _ => none
      else if c = 'f' then
        match cs' with
        | 'a' :: 'l' :: 's' :: 'e' :: r => some (.bool false, r)
        | _ => none
      else none
/-- Parse a non-empty `"key": value` list up to and including the closing
brace of the object. -/
def parseMembers : Nat → List Char → Option (JMembers × List Char)
  | 0, _ => none
  | fuel + 1, cs =>
    match skipWs cs with
    | [] => none
    | c :: cs' =>
      if c = '"' then
        match parseStringBody cs' with
        | none => none
        | some (k, r1) =>
          match skipWs r1 with
          | [] => none
          | c2 :: r2 =>
            if c2 = ':' then
              match parseVal fuel r2 with
              | none => none
              | some (v, r3) =>
                match skipWs r3 with
                | [] => none
                | c3 :: r4 =>
                  if c3 = ',' then
                    match parseMembers fuel r4 with
                    | some (kvs, r5) => some (.cons ⟨k⟩ v kvs, r5)
                    | none => none
                  else if c3 = Char.ofNat 125 then some (.cons ⟨k⟩ v .nil, r4)
                  else none
            else none
      else none
end

mutual
/-- Fuel measure of a value: one unit per `parseVal` call needed. -/
def msize : JValue → Nat
  | .str _ => 1
  | .bool _ => 1
  | .obj kvs => 1 + msizeM kvs
/-- Fuel measure of a member list. -/
def msizeM : JMembers → Nat
  | .nil => 0
  | .cons _ v rest => 1 + msize v + msizeM rest
end

mutual
/-- All strings of the value avoid the unmodelled control characters. -/
def safeVal : JValue → Bool
  | .str s => s.toList.all jsonSafe
  | .bool _ => true
  | .obj kvs => safeMembers kvs
/-- All keys and values of the member list are safe. -/
def safeMembers : JMembers → Bool
  | .nil => true
  | .cons k v rest => k.toList.all jsonSafe && safeVal v && safeMembers rest
end

/-- The keys of a member list, in order. -/
def JMembers.keys : JMembers → List String
  | .nil => []
  | .cons k _ rest => k :: keys rest

/-- Python dict lookup on the (unique-keyed) member list. -/
def JMembers.get : JMembers → String → Option JValue
  | .nil, _ => none
  | .cons k v rest, key => if k = key then some v else get rest key

/-- Python dict assignment `d[key] = v`: overwrite in place or append. -/
def JMembers.set : JMembers → String → JValue → JMembers
  | .nil, key, v => .cons key v .nil
  | .cons k v' rest, key, v =>
    if k = key then .cons k v rest else .cons k v' (set rest key v)

/-- Python `dict.update`: assign every item of `other` into `d`, in order. -/
def updateDict : JMembers → JMembers → JMembers
  | d, .nil => d
  | d, .cons k v rest => updateDict (d.set k v) rest

/-- A Python dict never holds a duplicate key. -/
def uniqKeys (d : JMembers) : Prop :=
  d.keys.Nodup

/-- Model of `save_settings`: the file content `json.dump` writes. -/
def save_settings (settings : JMembers) : String :=
  ⟨dumpVal (.obj settings) 0⟩

/-- Model of `load_settings`: when the config file exists, parse it and
`update` the settings dict with the result; on any parse failure (or
non-dict content) the exception is caught and the settings are unchanged. -/
def load_settings (settings : JMembers) (file : Option String) : JMembers :=
  match file with
  | none => settings
  | some content =>
    match parseVal (content.length + 1) content.toList with
    | some (.obj kvs, rest) =>
      if skipWs rest = [] then updateDict settings kvs else settings
    | _ => settings

end XHelper

namespace XHelper

/-- Leading whitespace is skipped. -/
theorem skipWs_cons_ws (c : Char) (cs : List Char) (h : isJsonWs c = true) :
    skipWs (c :: cs) = skipWs cs := by
  simp [skipWs, h]

/-- A non-whitespace head stops the skipping. -/
theorem skipWs_cons_not (c : Char) (cs : List Char) (h : isJsonWs c = false) :
    skipWs (c :: cs) = c :: cs := by
  simp [skipWs, h]

/-- Skipping over a run of spaces. -/
theorem skipWs_replicate_space (m : Nat) (cs : List Char) :
    skipWs (List.replicate m ' ' ++ cs) = skipWs cs := by
  induction m with
  | zero => simp
  | succ n ih => simpa [List.replicate_succ, skipWs, isJsonWs] using ih

/-- Skipping over an indentation pad. -/
theorem skipWs_pad (n : Nat) (cs : List Char) :
    skipWs (pad n ++ cs) = skipWs cs :=
  skipWs_replicate_space (4 * n) cs

/-- Skipping whitespace is idempotent. -/
theorem skipWs_idem (cs : List Char) : skipWs (skipWs cs) = skipWs cs := by
  induction cs with
  | nil => rfl
  | cons c cs ih =>
    by_cases h : isJsonWs c = true
    · rw [skipWs_cons_ws c cs h]; exact ih
    · rw [skipWs_cons_not c cs (by simpa using h), skipWs_cons_not c cs (by simpa using h)]

/-- A whitespace head does not change the result of `parseVal`. -/
theorem parseVal_cons_ws (fuel : Nat) (c : Char) (cs : List Char)
    (h : isJsonWs c = true) :
    parseVal fuel (c :: cs) = parseVal fuel cs := by
  match fuel with
  | 0 => rfl
  | fuel + 1 => simp only [parseVal, skipWs_cons_ws c cs h]

/-- A whitespace head does not change the result of `parseMembers`. -/
theorem parseMembers_cons_ws (fuel : Nat) (c : Char) (cs : List Char)
    (h : isJsonWs c = true) :
    parseMembers fuel (c :: cs) = parseMembers fuel cs := by
  match fuel with
  | 0 => rfl
  | fuel + 1 => simp only [parseMembers, skipWs_cons_ws c cs h]

/-- Leading whitespace of the input never matters to `parseMembers`. -/
theorem parseMembers_skipWs (fuel : Nat) (cs : List Char) :
    parseMembers fuel (skipWs cs) = parseMembers fuel cs := by
  match fuel with
  | 0 => rfl
  | fuel + 1 => simp only [parseMembers, skipWs_idem]

/-- Parsing back an escaped string body recovers the original characters. -/
theorem parseStringBody_escape (s : List Char) (hs : s.all jsonSafe = true) :
    ∀ rest : List Char,
      parseStringBody ((s.map escapeChar).flatten ++ '"' :: rest) = some (s, rest) := by
  induction s with
  | nil =>
    intro rest
    rw [List.map_nil, List.flatten_nil, List.nil_append, parseStringBody.eq_def]
    simp
  | cons c cs ih =>
    intro rest
    have hparts : c :: cs = [c] ++ cs := rfl
    have hcs : cs.all jsonSafe = true := by
      simp only [List.all_cons, Bool.and_eq_true] at hs
      exact hs.2
    have hc : jsonSafe c = true := by
      simp only [List.all_cons, Bool.and_eq_true] at hs
      exact hs.1
    have ihr := ih hcs
    by_cases h1 : c = '\\'
    · subst h1
      simp [escapeChar, parseStringBody, unescapeChar, ihr]
    · by_cases h2 : c = '"'
      · subst h2
        simp [escapeChar, parseStringBody, unescapeChar, ihr]
      · by_cases h3 : c = Char.ofNat 10
        · subst h3
          simp [escapeChar, parseStringBody, unescapeChar, ihr]
        · by_cases h4 : c = Char.ofNat 9
          · subst h4
            simp [escapeChar, parseStringBody, unescapeChar, ihr]
          · by_cases h5 : c = Char.ofNat 13
            · subst h5
              simp [escapeChar, parseStringBody, unescapeChar, ihr]
            · by_cases h6 : c = Char.ofNat 8
              · subst h6
                simp [escapeChar, parseStringBody, unescapeChar, ihr]
              · by_cases h7 : c = Char.ofNat 12
                · subst h7
                  simp [escapeChar, parseStringBody, unescapeChar, ihr]
                · have he : escapeChar c = [c] := by
                    simp [escapeChar, h1, h2, h3, h4, h5, h6, h7]
                  simp only [List.map_cons, List.flatten_cons, he,
                    List.append_assoc, List.cons_append, List.nil_append]
                  rw [parseStringBody.eq_def]
                  simp [h1, h2, ihr]

end XHelper

namespace XHelper

/-- Rebuilding a string from its character data is the identity. -/
theorem mk_data (s : String) : (⟨s.data⟩ : String) = s := rfl

/-- Every value costs at least one unit of fuel. -/
theorem msize_pos (v : JValue) : 1 ≤ msize v := by
  cases v <;> simp [msize]

/-- A non-empty member list costs at least one unit of fuel. -/
theorem msizeM_pos (k : String) (v : JValue) (rest : JMembers) :
    1 ≤ msizeM (.cons k v rest) := by
  simp only [msizeM]
  omega

mutual
/-- The fuel measure of a value is bounded by its serialized length. -/
theorem msize_le_dumpVal_length :
    ∀ (v : JValue) (ind : Nat), msize v ≤ (dumpVal v ind).length
  | .str s, ind => by simp [msize, dumpVal]
  | .bool b, ind => by cases b <;> simp [msize, dumpVal]
  | .obj .nil, ind => by simp [msize, msizeM, dumpVal]
  | .obj (.cons k v rest), ind => by
      have h := msizeM_le_dumpMembers_length (.cons k v rest) (ind + 1)
      simp only [msize, dumpVal, List.length_cons, List.length_append]
      omega
/-- The fuel measure of a member list is bounded by its serialized length. -/
theorem msizeM_le_dumpMembers_length :
    ∀ (kvs : JMembers) (ind : Nat), msizeM kvs ≤ (dumpMembers kvs ind).length
  | .nil, _ => by simp [msizeM, dumpMembers]
  | .cons k v .nil, ind => by
      have h := msize_le_dumpVal_length v ind
      simp only [msizeM, msizeM.eq_1, dumpMembers, List.length_append,
        List.length_cons]
      omega
  | .cons k v (.cons k' v' rest), ind => by
      have h1 := msize_le_dumpVal_length v ind
      have h2 := msizeM_le_dumpMembers_length (.cons k' v' rest) ind
      simp only [msizeM] at h2
      simp only [msizeM, dumpMembers, List.length_append, List.length_cons]
      omega
end

/-- Parsing a value that starts with a quote parses a string. -/
theorem parseVal_succ_quote (fuel : Nat) (cs : List Char) :
    parseVal (fuel + 1) ('"' :: cs)
      = match parseStringBody cs with
        | some (s, r) => some (.str ⟨s⟩, r)
        | none => none := by
  rw [parseVal.eq_def]
  simp [skipWs, isJsonWs]

/-- Parsing the literal `true`. -/
theorem parseVal_succ_true (fuel : Nat) (r : List Char) :
    parseVal (fuel + 1) ('t' :: 'r' :: 'u' :: 'e' :: r) = some (.bool true, r) := by
  rw [parseVal.eq_def]
  simp [skipWs, isJsonWs]

/-- Parsing the literal `false`. -/
theorem parseVal_succ_false (fuel : Nat) (r : List Char) :
    parseVal (fuel + 1) ('f' :: 'a' :: 'l' :: 's' :: 'e' :: r) = some (.bool false, r) := by
  rw [parseVal.eq_def]
  simp [skipWs, isJsonWs]

/-- Parsing an empty object. -/
theorem parseVal_succ_emptyObj (fuel : Nat) (cs' r : List Char)
    (h : skipWs cs' = Char.ofNat 125 :: r) :
    parseVal (fuel + 1) (Char.ofNat 123 :: cs') = some (.obj .nil, r) := by
  rw [parseVal.eq_def]
  simp [skipWs, isJsonWs, h]

/-- Parsing a non-empty object defers to the member parser. -/
theorem parseVal_succ_obj (fuel : Nat) (cs' r2 : List Char)
    (h : skipWs cs' = '"' :: r2) :
    parseVal (fuel + 1) (Char.ofNat 123 :: cs')
      = match parseMembers fuel cs' with
        | some (kvs, r) => some (JValue.obj kvs, r)
        | none => none := by
  rw [parseVal.eq_def]
  rw [← parseMembers_skipWs fuel cs', h]
  simp [skipWs, isJsonWs, h]

/-- The member parser ignores a leading indentation pad. -/
theorem parseMembers_pad (fuel n : Nat) (cs : List Char) :
    parseMembers fuel (pad n ++ cs) = parseMembers fuel cs := by
  match fuel with
  | 0 => rfl
  | fuel + 1 => simp only [parseMembers, skipWs_pad]

/-- Parsing one serialized `"key": ` entry: the key is recovered and the
parser continues at the value (behind the separating space). -/
theorem parseMembers_entry (fuel n : Nat) (k : String)
    (hk : k.toList.all jsonSafe = true) (body : List Char) :
    parseMembers (fuel + 1)
        (pad n ++ '"' :: ((k.toList.map escapeChar).flatten
          ++ '"' :: ':' :: ' ' :: body))
      = (match parseVal fuel (' ' :: body) with
         | none => none
         | some (v, r3) =>
           match skipWs r3 with
           | [] => none
           | c3 :: r4 =>
             if c3 = ',' then
               match parseMembers fuel r4 with
               | some (kvs, r5) => some (.cons k v kvs, r5)
               | none => none
             else if c3 = Char.ofNat 125 then some (.cons k v .nil, r4)
             else none) := by
  rw [parseMembers_pad, parseMembers.eq_def]
  simp [skipWs, isJsonWs, parseStringBody_escape k.data hk, mk_data]

end XHelper

namespace XHelper

/-- A serialized non-empty member list starts with its pad and a quote. -/
theorem dumpMembers_cons_shape (k : String) (v : JValue) (tail : JMembers) (ind : Nat) :
    ∃ Y, dumpMembers (.cons k v tail) ind = pad ind ++ '"' :: Y := by
  cases tail
  · exact ⟨_, rfl⟩
  · exact ⟨_, rfl⟩

/-- Round trip of the JSON serializer and parser on the settings value
domain: parsing back a dump (with any fuel covering the value's measure)
recovers the value exactly and consumes exactly the dump. -/
theorem parse_dump (fuel : Nat) :
    (∀ (v : JValue) (ind : Nat) (rest : List Char),
        safeVal v = true → msize v ≤ fuel →
        parseVal fuel (dumpVal v ind ++ rest) = some (v, rest))
    ∧ (∀ (kvs : JMembers) (ind : Nat) (rest : List Char),
        kvs ≠ JMembers.nil → safeMembers kvs = true → msizeM kvs ≤ fuel →
        parseMembers fuel
            (dumpMembers kvs (ind + 1)
              ++ Char.ofNat 10 :: (pad ind ++ Char.ofNat 125 :: rest))
          = some (kvs, rest)) := by
  induction fuel with
  | zero =>
    refine ⟨fun v ind rest _ hm => absurd hm (by have := msize_pos v; omega), ?_⟩
    intro kvs ind rest hne _ hm
    cases kvs with
    | nil => exact absurd rfl hne
    | cons k v tail => exact absurd hm (by have := msizeM_pos k v tail; omega)
  | succ fuel ih =>
    obtain ⟨ihv, ihm⟩ := ih
    constructor
    · intro v ind rest hsafe hm
      match v with
      | .str s =>
        have hs : s.toList.all jsonSafe = true := by simpa [safeVal] using hsafe
        simp only [dumpVal, List.cons_append, List.append_assoc,
          List.singleton_append, List.nil_append]
        rw [parseVal_succ_quote, parseStringBody_escape s.toList hs]
        simp [mk_data, String.toList]
      | .bool true =>
        simp only [dumpVal, List.cons_append, List.nil_append]
        exact parseVal_succ_true fuel rest
      | .bool false =>
        simp only [dumpVal, List.cons_append, List.nil_append]
        exact parseVal_succ_false fuel rest
      | .obj .nil =>
        simp only [dumpVal, List.cons_append, List.nil_append]
        exact parseVal_succ_emptyObj fuel _ rest (skipWs_cons_not _ _ (by decide))
      | .obj (.cons k v' kvs') =>
        have hsafeM : safeMembers (.cons k v' kvs') = true := by
          simpa [safeVal] using hsafe
        have hmM : msizeM (.cons k v' kvs') ≤ fuel := by
          simp only [msize] at hm
          omega
        simp only [dumpVal, List.cons_append, List.append_assoc,
          List.singleton_append, List.nil_append]
        obtain ⟨Y, hY⟩ := dumpMembers_cons_shape k v' kvs' (ind + 1)
        have hsk : skipWs (Char.ofNat 10
              :: (dumpMembers (JMembers.cons k v' kvs') (ind + 1)
                ++ Char.ofNat 10 :: (pad ind ++ Char.ofNat 125 :: rest)))
            = '"' :: (Y ++ Char.ofNat 10 :: (pad ind ++ Char.ofNat 125 :: rest)) := by
          rw [skipWs_cons_ws _ _ (by decide), hY, List.append_assoc, List.cons_append,
            skipWs_pad, skipWs_cons_not _ _ (by decide)]
        rw [parseVal_succ_obj fuel _ _ hsk]
        rw [parseMembers_cons_ws fuel _ _ (by decide)]
        rw [ihm (JMembers.cons k v' kvs') ind rest (by intro h; cases h) hsafeM hmM]
    · intro kvs ind rest hne hsafe hm
      match kvs with
      | .nil => exact absurd rfl hne
      | .cons k v tail =>
        have hsplit : k.toList.all jsonSafe = true
            ∧ safeVal v = true ∧ safeMembers tail = true := by
          simpa [safeMembers, Bool.and_eq_true, and_assoc] using hsafe
        obtain ⟨hk, hv, htail⟩ := hsplit
        have hmv : msize v ≤ fuel := by
          simp only [msizeM] at hm
          omega
        match tail with
        | .nil =>
          simp only [dumpMembers, List.cons_append, List.append_assoc, List.nil_append]
          rw [parseMembers_entry fuel (ind + 1) k hk _]
          rw [parseVal_cons_ws fuel _ _ (by decide)]
          rw [ihv v (ind + 1) _ hv hmv]
          have hT : skipWs (Char.ofNat 10 :: (pad ind ++ Char.ofNat 125 :: rest))
              = Char.ofNat 125 :: rest := by
            rw [skipWs_cons_ws _ _ (by decide), skipWs_pad,
              skipWs_cons_not _ _ (by decide)]
          simp [hT]
        | .cons k' v' tail' =>
          have hmtail : msizeM (.cons k' v' tail') ≤ fuel := by
            simp only [msizeM] at hm ⊢
            omega
          simp only [dumpMembers, List.cons_append, List.append_assoc, List.nil_append]
          rw [parseMembers_entry fuel (ind + 1) k hk _]
          rw [parseVal_cons_ws fuel _ _ (by decide)]
          rw [ihv v (ind + 1) _ hv hmv]
          simp [skipWs_cons_not, skipWs_cons_ws, isJsonWs, parseMembers_cons_ws,
            ihm (JMembers.cons k' v' tail') ind rest (by intro h; cases h) htail hmtail]

end XHelper

namespace XHelper

/-- Assigning a key the value it already has leaves the dict unchanged. -/
theorem set_of_get : ∀ (d : JMembers) (key : String) (v : JValue),
    d.get key = some v → d.set key v = d
  | .nil, key, v, h => by simp [JMembers.get] at h
  | .cons k v' rest, key, v, h => by
    by_cases hk : k = key
    · subst hk
      simp [JMembers.get] at h
      simp [JMembers.set, h]
    · simp [JMembers.get, hk] at h
      simp [JMembers.set, hk, set_of_get rest key v h]

/-- Items of `sub` all present in `d` with the same values. -/
def subDict : JMembers → JMembers → Prop
  | .nil, _ => True
  | .cons k v rest, d => d.get k = some v ∧ subDict rest d

/-- Updating a dict with items it already contains is the identity. -/
theorem updateDict_of_subDict : ∀ (other d : JMembers),
    subDict other d → updateDict d other = d
  | .nil, _, _ => rfl
  | .cons k v rest, d, h => by
    obtain ⟨hget, hrest⟩ := h
    rw [show updateDict d (.cons k v rest) = updateDict (d.set k v) rest from rfl]
    rw [set_of_get d k v hget]
    exact updateDict_of_subDict rest d hrest

/-- Lookup skips an entry carrying a different key. -/
theorem get_cons_ne (k0 : String) (v0 : JValue) (rest : JMembers) (key : String)
    (h : k0 ≠ key) : (JMembers.cons k0 v0 rest).get key = rest.get key := by
  simp [JMembers.get, h]

/-- Containment is preserved by extending the containing dict with a fresh
key. -/
theorem subDict_cons : ∀ (sub d : JMembers) (k0 : String) (v0 : JValue),
    subDict sub d → (∀ key ∈ sub.keys, key ≠ k0) → subDict sub (.cons k0 v0 d)
  | .nil, _, _, _, _, _ => trivial
  | .cons k v rest, d, k0, v0, h, hk => by
    obtain ⟨hget, hrest⟩ := h
    refine ⟨?_, subDict_cons rest d k0 v0 hrest
      (fun key hkey => hk key (by simp [JMembers.keys, hkey]))⟩
    rw [get_cons_ne k0 v0 d k (Ne.symm (hk k (by simp [JMembers.keys])))]
    exact hget

/-- A unique-keyed dict contains all of its own items. -/
theorem subDict_self : ∀ d : JMembers, uniqKeys d → subDict d d
  | .nil, _ => trivial
  | .cons k v rest, h => by
    rw [uniqKeys, JMembers.keys, List.nodup_cons] at h
    obtain ⟨hnotmem, hrest⟩ := h
    refine ⟨by simp [JMembers.get], ?_⟩
    exact subDict_cons rest rest k v (subDict_self rest hrest)
      (fun key hkey hcontra => hnotmem (hcontra ▸ hkey))

/-- Unfolding of `load_settings` on an existing file given as raw characters. -/
theorem load_settings_some (settings : JMembers) (L : List Char) :
    load_settings settings (some ⟨L⟩)
      = match parseVal (L.length + 1) L with
        | some (.obj kvs, rest) =>
          if skipWs rest = [] then updateDict settings kvs else settings
        | _ => settings := rfl

/-- The default settings dict of the pre-alpha main window (`unknown ver.py`,
lines 127–140), with a representative home directory in `log_file_path`. -/
def defaultSettings : JMembers :=
  .cons "adb_path" (.str "adb")
    (.cons "theme_dark" (.bool false)
      (.cons "auto_update" (.bool false)
        (.cons "log_to_file" (.bool false)
          (.cons "log_file_path" (.str "/home/user/xHelper_log.txt")
            (.cons "language" (.str "ru")
              (.cons "hotkeys"
                (.obj (.cons "RefreshDevices" (.str "F5")
                  (.cons "OpenLogcat" (.str "Ctrl+L")
                    (.cons "StartScrcpy" (.str "Ctrl+S")
                      (.cons "TakeScreenshot" (.str "Ctrl+Shift+S") .nil)))))
                .nil))))))

end XHelper

/-- Claim C3: saving the settings and loading them back reproduces the same
settings dict (same key set and values): `json.dump` followed by `json.load`
and `dict.update` is the identity on the settings object.  The hypotheses
state that the dict is a Python dict (unique keys) and that its strings stay
inside the modelled character set (no unescaped-control-character values). -/
theorem C3_settings_round_trip (s : XHelper.JMembers)
    (hsafe : XHelper.safeMembers s = true) (huniq : XHelper.uniqKeys s) :
    XHelper.load_settings s (some (XHelper.save_settings s)) = s := by
  have hparse : XHelper.parseVal ((XHelper.dumpVal (XHelper.JValue.obj s) 0).length + 1)
      (XHelper.dumpVal (XHelper.JValue.obj s) 0) = some (XHelper.JValue.obj s, []) := by
    have h := (XHelper.parse_dump ((XHelper.dumpVal (XHelper.JValue.obj s) 0).length + 1)).1
      (XHelper.JValue.obj s) 0 [] (by simpa [XHelper.safeVal] using hsafe)
      (Nat.le_trans (XHelper.msize_le_dumpVal_length (XHelper.JValue.obj s) 0)
        (Nat.le_succ _))
    simpa using h
  show XHelper.load_settings s (some ⟨XHelper.dumpVal (XHelper.JValue.obj s) 0⟩) = s
  rw [XHelper.load_settings_some, hparse]
  show (if XHelper.skipWs [] = [] then XHelper.updateDict s s else s) = s
  simp [XHelper.updateDict_of_subDict s s (XHelper.subDict_self s huniq)]

/-- Witness for C3: the round trip on the pre-alpha default settings dict. -/
theorem C3_settings_round_trip_witness :
    XHelper.load_settings XHelper.defaultSettings
        (some (XHelper.save_settings XHelper.defaultSettings))
      = XHelper.defaultSettings :=
  C3_settings_round_trip XHelper.defaultSettings (by decide)
    (show (XHelper.JMembers.keys XHelper.defaultSettings).Nodup by decide)
